import Mathlib

/-!
Verification development for the real-chat backend
(`backend/src/index.ts`): a socket.io server with three handlers,
`join-room`, `send-message` and `disconnect`, over a Supabase message
store.  The state of the server is embedded shallowly: socket.io's
per-room membership (mutated by `socket.join` and by the automatic
removal of a socket from all rooms on disconnect) is a list of
(session id, room id) pairs, the Supabase `messages` table is a list
of committed rows, and every `emit` appends an `Event` carrying the
payload and the recipient set computed at emit time.  Store responses
(insert acknowledged / failed, history fetch succeeded / failed) are
oracle parameters of the handlers, since the Store is an external
collaborator.
-/

namespace RealChat

/-- A chat message.  The `send-message` handler constructs the object
`{ room_id, user_email, text, created_at }` locally, without an `id`
field (`id = none`); the database assigns an `id` on insert, so rows
read back from the Store carry `id = some k`. -/
structure Msg where
  id : Option Nat
  room_id : String
  user_email : String
  text : String
  created_at : Nat
deriving DecidableEq, Repr

/-- One emitted socket.io event, with the payload the code sends and
the set of sessions it is delivered to, computed at emit time:
`socket.emit` targets the one session, `io.to(roomId).emit` targets
every session currently in the room. -/
inductive Event where
  | roomHistory (target : Nat) (msgs : List Msg)
  | activeUsers (targets : List Nat) (count : Nat)
  | newMessage (targets : List Nat) (msg : Msg)
  | errorEvt (target : Nat) (message : String)
deriving DecidableEq, Repr

/-- Server state: socket.io room membership, the Store's committed
`messages` rows (in commit order), the next database-assigned id, and
the log of emitted events. -/
structure ServerState where
  membership : List (Nat × String)
  store : List Msg
  nextId : Nat
  events : List Event
deriving DecidableEq, Repr

/-- Append one emitted event to the log. -/
def emit (st : ServerState) (e : Event) : ServerState :=
  { st with events := st.events ++ [e] }

/-- The sessions currently in a room (socket.io's room set, as the
code observes it via `io.in(roomId).allSockets()` / `io.to(roomId)`). -/
def membersOf (roomId : String) (ms : List (Nat × String)) : List Nat :=
  (ms.filter (fun p => p.2 == roomId)).map (fun p => p.1)

/-- `socket.join(roomId)`: adds the session to the room's member set;
a set, so adding an existing member changes nothing. -/
def addMember (sid : Nat) (roomId : String) (ms : List (Nat × String)) :
    List (Nat × String) :=
  if (sid, roomId) ∈ ms then ms else ms ++ [(sid, roomId)]

/-- Ascending creation-time order on messages, the `order('created_at',
ascending: true)` of the history query. -/
def byTime (a b : Msg) : Prop := a.created_at ≤ b.created_at

instance : DecidableRel byTime := fun a b => Nat.decLe a.created_at b.created_at

instance : IsTotal Msg byTime := ⟨fun a b => Nat.le_total a.created_at b.created_at⟩

instance : IsTrans Msg byTime := ⟨fun _ _ _ => Nat.le_trans⟩

/-- The Store's history query: the rows of the room, ordered by
`created_at` ascending. -/
def getMessages (roomId : String) (store : List Msg) : List Msg :=
  List.insertionSort byTime (store.filter (fun m => m.room_id == roomId))

/-- The `join-room` handler.  `socket.join(roomId)` runs first; then
the history fetch: on a fetch error the handler emits
`error {message: 'Failed to load room history'}` to the joining
socket and returns (so the join is not undone, and no presence
broadcast happens); on success it emits `room-history` to the joining
socket only, then `active-users` with the bare room-size count to the
whole room.  `fetchOk` is the Store's response. -/
def joinRoom (sid : Nat) (roomId : String) (fetchOk : Bool)
    (st : ServerState) : ServerState :=
  let st1 := { st with membership := addMember sid roomId st.membership }
  if fetchOk then
    let st2 := emit st1 (Event.roomHistory sid (getMessages roomId st1.store))
    let clients := membersOf roomId st2.membership
    emit st2 (Event.activeUsers clients clients.length)
  else
    emit st1 (Event.errorEvt sid "Failed to load room history")

/-- The `send-message` handler.  It builds
`msg = { room_id, user_email, text, created_at }` (no validation of
`text` or `roomId`, no membership check on the sender), awaits the
Store insert, and on an insert error emits
`error {message: 'Failed to send message'}` to the sender and
returns; on success it emits `new-message` with the locally built
`msg` (no `id`) to every session currently in the room.  `insertOk`
is the Store's response; on success the Store commits the row with
the next assigned id. -/
def sendMessage (sid : Nat) (roomId userEmail text : String) (now : Nat)
    (insertOk : Bool) (st : ServerState) : ServerState :=
  let msg : Msg :=
    { id := none, room_id := roomId, user_email := userEmail,
      text := text, created_at := now }
  if insertOk then
    let st1 := { st with store := st.store ++ [{ msg with id := some st.nextId }],
                         nextId := st.nextId + 1 }
    emit st1 (Event.newMessage (membersOf roomId st1.membership) msg)
  else
    emit st (Event.errorEvt sid "Failed to send message")

/-- The `disconnect` handler.  The repository's handler only logs;
socket.io itself removes the disconnected socket from every room it
had joined.  No event is emitted. -/
def onDisconnect (sid : Nat) (st : ServerState) : ServerState :=
  { st with membership := st.membership.filter (fun p => p.1 != sid) }

/-!
Interleaving model of `send-message`.  Each invocation of the handler
is an async function suspended at `await supabase.from('messages')
.insert(msg)`: the part before the await (destructuring the payload
and building `msg`) and the part after it (the error emit or the
room broadcast) are separate event-loop steps, and the Store commits
and acknowledges the insert in between.  Nothing in the code orders
two in-flight invocations relative to each other, so a scheduler
picks the interleaving.  Each in-flight invocation is a pending entry
keyed by a token, with a phase: insert issued, acknowledged as
committed, or acknowledged as failed.
-/

/-- One in-flight `send-message` invocation: the socket that sent it
and the locally built message object. -/
structure PendingSend where
  sender : Nat
  msg : Msg
deriving DecidableEq, Repr

/-- The phase of an in-flight `send-message`: waiting on the insert,
insert committed but handler not yet resumed, or insert failed but
handler not yet resumed. -/
inductive SendPhase where
  | submitted
  | ackedOk
  | ackedErr
deriving DecidableEq, Repr

/-- Server state in the interleaving model: the atomic state plus the
table of in-flight `send-message` invocations. -/
structure AsyncState where
  membership : List (Nat × String)
  store : List Msg
  nextId : Nat
  events : List Event
  pending : Nat → Option (PendingSend × SendPhase)
  nextTok : Nat

/-- An event-loop / Store step the scheduler can take:
`recv` runs a `send-message` handler up to its await (building `msg`
and issuing the insert), `commit`/`fail` are the Store committing or
rejecting a pending insert, and `resume` runs the handler's
continuation after the await (broadcast on success, error to the
sender on failure). -/
inductive Action where
  | recv (sender : Nat) (roomId userEmail text : String) (now : Nat)
  | commit (tok : Nat)
  | fail (tok : Nat)
  | resume (tok : Nat)

/-- One scheduler step.  A step whose token is not in the matching
phase does nothing. -/
def stepA (s : AsyncState) : Action → AsyncState
  | Action.recv sender roomId userEmail text now =>
      let msg : Msg :=
        { id := none, room_id := roomId, user_email := userEmail,
          text := text, created_at := now }
      { s with
        pending := fun t =>
          if t = s.nextTok then some (⟨sender, msg⟩, SendPhase.submitted)
          else s.pending t,
        nextTok := s.nextTok + 1 }
  | Action.commit tok =>
      match s.pending tok with
      | some (p, SendPhase.submitted) =>
          { s with
            store := s.store ++ [{ p.msg with id := some s.nextId }],
            nextId := s.nextId + 1,
            pending := fun t =>
              if t = tok then some (p, SendPhase.ackedOk) else s.pending t }
      | _ => s
  | Action.fail tok =>
      match s.pending tok with
      | some (p, SendPhase.submitted) =>
          { s with
            pending := fun t =>
              if t = tok then some (p, SendPhase.ackedErr) else s.pending t }
      | _ => s
  | Action.resume tok =>
      match s.pending tok with
      | some (p, SendPhase.ackedOk) =>
          { s with
            events := s.events ++
              [Event.newMessage (membersOf p.msg.room_id s.membership) p.msg],
            pending := fun t => if t = tok then none else s.pending t }
      | some (p, SendPhase.ackedErr) =>
          { s with
            events := s.events ++
              [Event.errorEvt p.sender "Failed to send message"],
            pending := fun t => if t = tok then none else s.pending t }
      | _ => s

/-- Run a whole schedule. -/
def runA (acts : List Action) (s : AsyncState) : AsyncState :=
  acts.foldl stepA s

/-- An initial async state: the given room membership, empty Store,
no events, nothing in flight. -/
def initA (ms : List (Nat × String)) : AsyncState :=
  { membership := ms, store := [], nextId := 0, events := [],
    pending := fun _ => none, nextTok := 0 }

/-- Whether an event is an `active-users` broadcast. -/
def isActiveUsers : Event → Bool
  | Event.activeUsers _ _ => true
  | _ => false

/-!  ## Helper lemmas  -/

theorem mem_membersOf_addMember (sid : Nat) (roomId : String)
    (ms : List (Nat × String)) :
    sid ∈ membersOf roomId (addMember sid roomId ms) := by
  unfold addMember
  by_cases h : (sid, roomId) ∈ ms
  · rw [if_pos h]
    exact List.mem_map_of_mem _ (List.mem_filter.mpr ⟨h, by simp⟩)
  · rw [if_neg h]
    simp [membersOf, List.filter_append]

theorem count_membersOf_onDisconnect (sid : Nat) (roomId : String)
    (st : ServerState) :
    List.count sid (membersOf roomId (onDisconnect sid st).membership) = 0 := by
  rw [List.count_eq_zero]
  simp [onDisconnect, membersOf, List.mem_filter]

theorem onDisconnect_idem (sid : Nat) (st : ServerState) :
    onDisconnect sid (onDisconnect sid st) = onDisconnect sid st := by
  simp [onDisconnect, List.filter_filter]

/-!  ## Claims about the handlers (atomic model)  -/

/-- Claim C5: in `send-message`, the Store insert is awaited before
any broadcast, so the committed row is in the Store at the moment the
`new-message` event is emitted; on a Store write failure the handler
emits `error` to the sending session only — no `new-message` is
broadcast, and the membership and the message store are unchanged. -/
theorem sendMessage_persist_precedes_broadcast_and_failure_isolated
    (st : ServerState) (sid : Nat) (roomId userEmail text : String) (now : Nat) :
    let row : Msg := { id := some st.nextId, room_id := roomId,
                       user_email := userEmail, text := text, created_at := now }
    let wire : Msg := { id := none, room_id := roomId, user_email := userEmail,
                        text := text, created_at := now }
    let stS := sendMessage sid roomId userEmail text now true st
    let stF := sendMessage sid roomId userEmail text now false st
    stS.store = st.store ++ [row] ∧
    stS.events = st.events ++
      [Event.newMessage (membersOf roomId st.membership) wire] ∧
    row ∈ stS.store ∧
    stF.store = st.store ∧
    stF.membership = st.membership ∧
    stF.events = st.events ++ [Event.errorEvt sid "Failed to send message"] := by
  refine ⟨rfl, by simp [sendMessage, emit], by simp [sendMessage, emit], rfl, rfl,
    by simp [sendMessage, emit]⟩

/-- Claim C6: a `join-room` whose history fetch succeeds appends
exactly one `room-history` event, targeted at the joining session
alone (never broadcast, and each join call emits its own response),
whose payload is precisely the room's persisted messages — a
permutation of the Store rows with that room id — in ascending
creation-time order; the only other event of the join is the
presence broadcast. -/
theorem joinRoom_history_exactly_once_to_joiner_sorted
    (st : ServerState) (sid : Nat) (roomId : String) :
    let hist := getMessages roomId st.store
    let mems := membersOf roomId (addMember sid roomId st.membership)
    let st2 := joinRoom sid roomId true st
    st2.events = st.events ++
      [Event.roomHistory sid hist, Event.activeUsers mems mems.length] ∧
    List.Sorted byTime hist ∧
    hist.Perm (st.store.filter (fun m => m.room_id == roomId)) := by
  refine ⟨by simp [joinRoom, emit], ?_, ?_⟩
  · exact List.sorted_insertionSort byTime _
  · exact List.perm_insertionSort byTime _

/-- Claim C8: when the history fetch of a `join-room` fails, the
handler emits an `error` event to the joining session and returns:
the join itself is not undone — the session is (still) a member of
the room afterwards — and the Store is untouched. -/
theorem joinRoom_fetch_failure_keeps_membership
    (st : ServerState) (sid : Nat) (roomId : String) :
    let stF := joinRoom sid roomId false st
    stF.events = st.events ++ [Event.errorEvt sid "Failed to load room history"] ∧
    stF.membership = addMember sid roomId st.membership ∧
    sid ∈ membersOf roomId stF.membership ∧
    stF.store = st.store := by
  refine ⟨by simp [joinRoom, emit], rfl, ?_, rfl⟩
  exact mem_membersOf_addMember sid roomId st.membership

/-- Claim C9: the `send-message` handler never consults the sender's
room membership: changing the membership state arbitrarily changes
nothing about what is persisted, the send is accepted (persisted and
broadcast to the room's members) for every state — in particular both
when the sender has joined `roomId` and when it has not — and the
only rejection the handler can produce is the Store-failure `error`,
never an authorization rejection. -/
theorem sendMessage_no_membership_check
    (st : ServerState) (ms2 : List (Nat × String)) (sid : Nat)
    (roomId userEmail text : String) (now : Nat) (insertOk : Bool) :
    let wire : Msg := { id := none, room_id := roomId, user_email := userEmail,
                        text := text, created_at := now }
    let stS := sendMessage sid roomId userEmail text now true st
    (sendMessage sid roomId userEmail text now insertOk
        { st with membership := ms2 }).store =
      (sendMessage sid roomId userEmail text now insertOk st).store ∧
    stS.store = st.store ++ [{ wire with id := some st.nextId }] ∧
    stS.events = st.events ++
      [Event.newMessage (membersOf roomId st.membership) wire] ∧
    (sendMessage sid roomId userEmail text now false st).events =
      st.events ++ [Event.errorEvt sid "Failed to send message"] := by
  refine ⟨?_, rfl, by simp [sendMessage, emit], by simp [sendMessage, emit]⟩
  cases insertOk <;> simp [sendMessage, emit]

/-- Claim C10: the `new-message` broadcast carries the locally built
object without the Store-assigned identifier (`id = none`), while the
committed row — the one a later `room-history` replay returns — is
the same message with `id` assigned; after a successful send the
row with `id = some st.nextId` is in the Store and appears in the
history query for the room. -/
theorem broadcast_lacks_id_history_has_id
    (st : ServerState) (sid : Nat) (roomId userEmail text : String) (now : Nat) :
    let wire : Msg := { id := none, room_id := roomId, user_email := userEmail,
                        text := text, created_at := now }
    let row : Msg := { wire with id := some st.nextId }
    let stS := sendMessage sid roomId userEmail text now true st
    stS.events = st.events ++
      [Event.newMessage (membersOf roomId st.membership) wire] ∧
    wire.id = none ∧
    row.id = some st.nextId ∧
    row ∈ stS.store ∧
    row ∈ getMessages roomId stS.store := by
  refine ⟨by simp [sendMessage, emit], rfl, rfl, by simp [sendMessage, emit], ?_⟩
  simp [getMessages, sendMessage, emit, List.mem_filter]

/-- Counterexample to claim C2: the server performs no validation of
`text` — a send whose text is empty after trimming is accepted: with
the Store acknowledging the insert, the empty message is persisted
and broadcast to the room, and no error event is emitted. -/
theorem sendMessage_accepts_empty_text_cex :
    let st0 : ServerState :=
      { membership := [(1, "r")], store := [], nextId := 0, events := [] }
    let st1 := sendMessage 1 "r" "a@x" "" 5 true st0
    "".data.all Char.isWhitespace = true ∧
    st1.store = [{ id := some 0, room_id := "r", user_email := "a@x",
                   text := "", created_at := 5 }] ∧
    st1.events = [Event.newMessage [1]
      { id := none, room_id := "r", user_email := "a@x",
        text := "", created_at := 5 }] := by
  refine ⟨rfl, ?_, ?_⟩ <;> rfl

/-- Claim C2 (amended): the server itself validates nothing: even a
text that is empty after trimming (all of its characters whitespace)
is passed to the Store, and when the Store acknowledges the insert it
is persisted and broadcast like any other message, with no error; a
send fails only when the Store's insert fails (as for a `roomId` the
Store does not recognize), and then the error `Failed to send
message` goes to the sender with no side effects — nothing persisted,
membership unchanged, nothing broadcast. -/
theorem sendMessage_no_server_validation
    (st : ServerState) (sid : Nat) (roomId userEmail text : String) (now : Nat)
    (_htext : text.data.all Char.isWhitespace = true) :
    let wire : Msg := { id := none, room_id := roomId, user_email := userEmail,
                        text := text, created_at := now }
    let stS := sendMessage sid roomId userEmail text now true st
    let stF := sendMessage sid roomId userEmail text now false st
    stS.store = st.store ++ [{ wire with id := some st.nextId }] ∧
    stS.events = st.events ++
      [Event.newMessage (membersOf roomId st.membership) wire] ∧
    stF.store = st.store ∧
    stF.membership = st.membership ∧
    stF.events = st.events ++ [Event.errorEvt sid "Failed to send message"] := by
  exact ⟨rfl, by simp [sendMessage, emit], rfl, rfl, by simp [sendMessage, emit]⟩

/-- Witness for the amended claim C2, at the empty text. -/
theorem sendMessage_no_server_validation_witness :
    let st0 : ServerState :=
      { membership := [(1, "r")], store := [], nextId := 0, events := [] }
    let wire : Msg := { id := none, room_id := "r", user_email := "a@x",
                        text := "", created_at := 5 }
    let stS := sendMessage 1 "r" "a@x" "" 5 true st0
    let stF := sendMessage 1 "r" "a@x" "" 5 false st0
    stS.store = st0.store ++ [{ wire with id := some st0.nextId }] ∧
    stS.events = st0.events ++
      [Event.newMessage (membersOf "r" st0.membership) wire] ∧
    stF.store = st0.store ∧
    stF.membership = st0.membership ∧
    stF.events = st0.events ++ [Event.errorEvt 1 "Failed to send message"] :=
  sendMessage_no_server_validation
    { membership := [(1, "r")], store := [], nextId := 0, events := [] }
    1 "r" "a@x" "" 5 (by decide)

/-- Counterexample to claim C3: a disconnect-induced removal is a
membership change, yet the server broadcasts nothing: with sessions 1
and 2 in room `r`, session 2's disconnect shrinks the member set from
`[1, 2]` to `[1]` and emits no event at all — in particular no
`active-users` event. -/
theorem activeUsers_missing_on_disconnect_cex :
    let st0 : ServerState :=
      { membership := [(1, "r"), (2, "r")], store := [], nextId := 0, events := [] }
    membersOf "r" st0.membership = [1, 2] ∧
    membersOf "r" (onDisconnect 2 st0).membership = [1] ∧
    (onDisconnect 2 st0).events = [] := by
  exact ⟨by decide, by decide, rfl⟩

/-- Claim C3 (amended): only a `join-room` whose history fetch
succeeds makes the server broadcast an `active-users` event; its
payload is the bare member count (no room id), equal to
`|members(roomId)|` at the moment of computation, and it goes to
every current member of the room including the joining session.  A
join whose history fetch fails emits no `active-users` event, and a
disconnect-induced removal emits nothing at all. -/
theorem activeUsers_only_on_successful_join
    (st : ServerState) (sid : Nat) (roomId : String) :
    let mems := membersOf roomId (addMember sid roomId st.membership)
    (joinRoom sid roomId true st).events = st.events ++
      [Event.roomHistory sid (getMessages roomId st.store),
       Event.activeUsers mems mems.length] ∧
    sid ∈ mems ∧
    (joinRoom sid roomId false st).events.filter isActiveUsers =
      st.events.filter isActiveUsers ∧
    (onDisconnect sid st).events = st.events := by
  refine ⟨by simp [joinRoom, emit], mem_membersOf_addMember sid roomId st.membership,
    ?_, rfl⟩
  simp [joinRoom, emit, List.filter_append, isActiveUsers]

/-- Counterexample to claim C4: session 5 is joined to rooms `a` and
`b`; its disconnect removes it from both member sets but triggers
zero presence recount broadcasts, not one per affected room. -/
theorem disconnect_no_recount_per_room_cex :
    let st0 : ServerState :=
      { membership := [(5, "a"), (5, "b"), (7, "a")], store := [],
        nextId := 0, events := [] }
    let st1 := onDisconnect 5 st0
    membersOf "a" st0.membership = [5, 7] ∧
    membersOf "b" st0.membership = [5] ∧
    membersOf "a" st1.membership = [7] ∧
    membersOf "b" st1.membership = [] ∧
    (st1.events.filter isActiveUsers).length = 0 := by
  exact ⟨by decide, by decide, by decide, by decide, rfl⟩

/-- Claim C4 (amended): after a session disconnects it is absent from
every room's member set, and `onDisconnect` is idempotent — running
it again on the already-removed session is a no-op; but no presence
recount is broadcast for the affected rooms (the handler emits
nothing), rather than exactly one per room. -/
theorem onDisconnect_cleanup_idempotent_no_recount
    (st : ServerState) (sid : Nat) (roomId : String) :
    List.count sid (membersOf roomId (onDisconnect sid st).membership) = 0 ∧
    onDisconnect sid (onDisconnect sid st) = onDisconnect sid st ∧
    (onDisconnect sid st).events = st.events ∧
    (onDisconnect sid st).store = st.store :=
  ⟨count_membersOf_onDisconnect sid roomId st, onDisconnect_idem sid st, rfl, rfl⟩

/-- Counterexample to claim C7: the sender is not always included in
the fan-out — a sender that never joined the room does not receive
its own message.  Session 1 sends to room `r` whose only member is
session 2: the broadcast's recipient set is `[2]`, which does not
contain the sender 1. -/
theorem sender_not_in_fanout_cex :
    let st0 : ServerState :=
      { membership := [(2, "r")], store := [], nextId := 0, events := [] }
    let st1 := sendMessage 1 "r" "a@x" "hi" 5 true st0
    st1.events = [Event.newMessage [2]
      { id := none, room_id := "r", user_email := "a@x",
        text := "hi", created_at := 5 }] ∧
    List.count 1 ([2] : List Nat) = 0 := by
  exact ⟨by decide, rfl⟩

/-- Claim C7 (amended): a successfully persisted message is fanned
out to exactly the sessions currently in `members(roomId)`; the
broadcast does not exclude the sender, so whenever the sending
session is a member of the room it is included in the fan-out and
receives its own message. -/
theorem fanout_to_members_includes_member_sender
    (st : ServerState) (sid : Nat) (roomId userEmail text : String) (now : Nat)
    (hmem : sid ∈ membersOf roomId st.membership) :
    let wire : Msg := { id := none, room_id := roomId, user_email := userEmail,
                        text := text, created_at := now }
    (sendMessage sid roomId userEmail text now true st).events = st.events ++
      [Event.newMessage (membersOf roomId st.membership) wire] ∧
    sid ∈ membersOf roomId st.membership :=
  ⟨by simp [sendMessage, emit], hmem⟩

/-- Witness for the amended claim C7: session 1 is a member of room
`r` and its own send is fanned out to the member list `[1, 2]`, which
includes it. -/
theorem fanout_to_members_includes_member_sender_witness :
    let st0 : ServerState :=
      { membership := [(1, "r"), (2, "r")], store := [], nextId := 0, events := [] }
    let wire : Msg := { id := none, room_id := "r", user_email := "a@x",
                        text := "hi", created_at := 5 }
    (sendMessage 1 "r" "a@x" "hi" 5 true st0).events = st0.events ++
      [Event.newMessage (membersOf "r" st0.membership) wire] ∧
    (1 : Nat) ∈ membersOf "r" st0.membership :=
  fanout_to_members_includes_member_sender
    { membership := [(1, "r"), (2, "r")], store := [], nextId := 0, events := [] }
    1 "r" "a@x" "hi" 5 (by decide)

/-- Invariant of the interleaving model: every `new-message` event in
the log already has a committed row in the Store, and every in-flight
send whose insert was acknowledged as committed has its row in the
Store. -/
def InvA (s : AsyncState) : Prop :=
  (∀ targets m, Event.newMessage targets m ∈ s.events →
     ∃ k, { m with id := some k } ∈ s.store) ∧
  (∀ tok p, s.pending tok = some (p, SendPhase.ackedOk) →
     ∃ k, { p.msg with id := some k } ∈ s.store)

theorem invA_step (s : AsyncState) (a : Action) (h : InvA s) :
    InvA (stepA s a) := by
  obtain ⟨he, hp⟩ := h
  cases a with
  | recv sender roomId userEmail text now =>
      refine ⟨fun targets m hm => he targets m hm, fun tok p hpend => ?_⟩
      simp only [stepA] at hpend
      split at hpend
      · exact absurd hpend (by simp)
      · exact hp tok p hpend
  | commit tok =>
      rcases hres : s.pending tok with - | ⟨p0, ph⟩
      · simp only [stepA, hres]; exact ⟨he, hp⟩
      · cases ph with
        | submitted =>
            simp only [stepA, hres]
            refine ⟨fun targets m hm => ?_, fun tok2 p hpend => ?_⟩
            · obtain ⟨k, hk⟩ := he targets m hm
              exact ⟨k, List.mem_append_left _ hk⟩
            · simp only at hpend
              split at hpend
              · obtain ⟨h1, -⟩ := Prod.mk.injEq .. ▸ Option.some.inj hpend
                subst h1
                exact ⟨s.nextId, List.mem_append_right _ (by simp)⟩
              · obtain ⟨k, hk⟩ := hp tok2 p hpend
                exact ⟨k, List.mem_append_left _ hk⟩
        | ackedOk => simp only [stepA, hres]; exact ⟨he, hp⟩
        | ackedErr => simp only [stepA, hres]; exact ⟨he, hp⟩
  | fail tok =>
      rcases hres : s.pending tok with - | ⟨p0, ph⟩
      · simp only [stepA, hres]; exact ⟨he, hp⟩
      · cases ph with
        | submitted =>
            simp only [stepA, hres]
            refine ⟨fun targets m hm => he targets m hm, fun tok2 p hpend => ?_⟩
            simp only at hpend
            split at hpend
            · exact absurd hpend (by simp)
            · exact hp tok2 p hpend
        | ackedOk => simp only [stepA, hres]; exact ⟨he, hp⟩
        | ackedErr => simp only [stepA, hres]; exact ⟨he, hp⟩
  | resume tok =>
      rcases hres : s.pending tok with - | ⟨p0, ph⟩
      · simp only [stepA, hres]; exact ⟨he, hp⟩
      · cases ph with
        | submitted => simp only [stepA, hres]; exact ⟨he, hp⟩
        | ackedOk =>
            simp only [stepA, hres]
            refine ⟨fun targets m hm => ?_, fun tok2 p hpend => ?_⟩
            · rcases List.mem_append.mp hm with hold | hnew
              · exact he targets m hold
              · obtain ⟨-, h2⟩ := Event.newMessage.injEq .. ▸
                  List.mem_singleton.mp hnew
                exact h2 ▸ hp tok p0 hres
            · simp only at hpend
              split at hpend
              · exact absurd hpend (by simp)
              · exact hp tok2 p hpend
        | ackedErr =>
            simp only [stepA, hres]
            refine ⟨fun targets m hm => ?_, fun tok2 p hpend => ?_⟩
            · rcases List.mem_append.mp hm with hold | hnew
              · exact he targets m hold
              · exact absurd (List.mem_singleton.mp hnew) (by simp)
            · simp only at hpend
              split at hpend
              · exact absurd hpend (by simp)
              · exact hp tok2 p hpend

theorem invA_runA (acts : List Action) (s : AsyncState) (h : InvA s) :
    InvA (runA acts s) := by
  induction acts generalizing s with
  | nil => exact h
  | cons a rest ih =>
      simpa [runA, List.foldl_cons] using ih (stepA s a) (invA_step s a h)

theorem invA_initA (ms : List (Nat × String)) : InvA (initA ms) :=
  ⟨fun _ m hm => absurd hm (List.not_mem_nil _),
   fun _ p hpend => by simp [initA] at hpend⟩

/-- Counterexample to claim C1: the server does not serialize
persist+broadcast per room.  Two concurrent sends to room `r`, whose
members are sessions 1 and 2: both handlers issue their inserts, the
Store commits `m1` (id 0) before `m2` (id 1), but the handlers
resume in the opposite order, so every member observes `new-message`
for `m2` before `m1` — the broadcast order differs from the Store's
commit order for the same room. -/
theorem same_room_broadcast_order_differs_from_commit_cex :
    let sched : List Action :=
      [Action.recv 1 "r" "a@x" "m1" 10, Action.recv 2 "r" "b@x" "m2" 11,
       Action.commit 0, Action.commit 1, Action.resume 1, Action.resume 0]
    let fin := runA sched (initA [(1, "r"), (2, "r")])
    fin.store = [{ id := some 0, room_id := "r", user_email := "a@x",
                   text := "m1", created_at := 10 },
                 { id := some 1, room_id := "r", user_email := "b@x",
                   text := "m2", created_at := 11 }] ∧
    fin.events = [Event.newMessage [1, 2]
                    { id := none, room_id := "r", user_email := "b@x",
                      text := "m2", created_at := 11 },
                  Event.newMessage [1, 2]
                    { id := none, room_id := "r", user_email := "a@x",
                      text := "m1", created_at := 10 }] := by
  exact ⟨rfl, rfl⟩

/-- Claim C1 (amended): per message, durability still precedes
visibility — under every interleaving of `send-message` handlers,
whenever a `new-message` event is in the log, the Store already holds
the committed row for that message — but the server does not
serialize persist+broadcast per room, so members of a room may
observe concurrently sent messages in an order different from the
Store's commit order. -/
theorem newMessage_broadcast_only_after_commit
    (ms : List (Nat × String)) (acts : List Action) (targets : List Nat)
    (m : Msg)
    (hm : Event.newMessage targets m ∈ (runA acts (initA ms)).events) :
    ∃ k, { m with id := some k } ∈ (runA acts (initA ms)).store :=
  (invA_runA acts (initA ms) (invA_initA ms)).1 targets m hm

/-- Witness for the amended claim C1: one send, committed then
resumed; the broadcast message has its committed row in the Store. -/
theorem newMessage_broadcast_only_after_commit_witness :
    ∃ k, ({ id := some k, room_id := "r", user_email := "a@x",
            text := "m", created_at := 3 } : Msg) ∈
      (runA [Action.recv 1 "r" "a@x" "m" 3, Action.commit 0, Action.resume 0]
        (initA [(1, "r")])).store :=
  newMessage_broadcast_only_after_commit [(1, "r")]
    [Action.recv 1 "r" "a@x" "m" 3, Action.commit 0, Action.resume 0]
    [1] { id := none, room_id := "r", user_email := "a@x",
          text := "m", created_at := 3 }
    (by decide)

end RealChat
